import Mathlib

/-!
Verification development for the PyFluxPro correction engine
(`scripts/opf_processing.py`, `scripts/opf_func_corrections.py`,
`scripts/opf_compliance.py`).

Series of measurements are embedded as `List (Option ℚ)`: `none` models a
missing sample (a `NaN` in the source), `some x` a finite measured value.
Python comparisons against `NaN` are always `False`; `optLt` mirrors that.
-/

namespace PyFluxPro

/-- A column of samples; `none` is the missing marker (`NaN`). -/
abbrev Series := List (Option ℚ)

/-- A table of named columns (the pandas `DataFrame` passed to kernels). -/
abbrev RTable := List (String × Series)

/-- Python comparison `a < b` where either side may be `NaN`: any comparison
involving `NaN` is `False`. -/
def optLt (a b : Option ℚ) : Bool :=
  match a, b with
  | some x, some y => decide (x < y)
  | _, _ => false

/-- The non-missing values of a series, in order. -/
def someVals (s : Series) : List ℚ :=
  s.filterMap id

/-- The non-missing values of a series, sorted ascending (as numpy's
quantile routines do internally). -/
def sortedVals (s : Series) : List ℚ :=
  (someVals s).insertionSort (fun a b => a ≤ b)

/-- Linear-interpolation quantile evaluator at (fractional) position `pos`
into the sorted value list `vs`: numpy's default interpolation
`vs[i] + (pos - i) * (vs[i+1] - vs[i])` with `i = ⌊pos⌋`. -/
def quantAt (vs : List ℚ) (pos : ℚ) : ℚ :=
  match vs.get? (⌊pos⌋).toNat, vs.get? ((⌊pos⌋).toNat + 1) with
  | some a, some b => a + (pos - ((⌊pos⌋).toNat : ℚ)) * (b - a)
  | some a, none => a
  | none, _ => 0

/-- `numpy.nanquantile(s, q)`: quantile of the non-missing values with
linear interpolation at position `q * (n - 1)`; `none` (numpy: `NaN`)
when there is no non-missing value. -/
def nanquantile (s : Series) (q : ℚ) : Option ℚ :=
  let vs := sortedVals s
  if vs.isEmpty then none
  else some (quantAt vs (q * ((vs.length : ℚ) - 1)))

/-- `numpy.nanmedian`, which agrees with `nanquantile` at `q = 1/2`
(middle element for odd counts, midpoint of the two middle elements for
even counts). -/
def nanmedian (s : Series) : Option ℚ :=
  nanquantile s (1/2)

/-- The absurdity bounds of `__Despike__` (source lines 43-46):
`min_bound = 10^(-3 if p1 > 0 else 3) * p1` and
`max_bound = 10^(3 if p99 > 0 else -3) * p99`, `NaN` when the respective
percentile is `NaN`. -/
def absurd_bounds (s : Series) : Option ℚ × Option ℚ :=
  let p1 := nanquantile s (1/100)
  let p99 := nanquantile s (99/100)
  (p1.map (fun x => (if 0 < x then (1:ℚ)/1000 else 1000) * x),
   p99.map (fun x => (if 0 < x then (1000:ℚ) else 1/1000) * x))

/-- Source lines 48-56 of `__Despike__`: the count
`sum(where((x < min_bound) * (x > max_bound), 1, 0))` — note the source
multiplies the two comparison masks, i.e. takes their conjunction — and,
only when that count is non-zero, the replacement of values below
`min_bound` or above `max_bound` by `NaN`.  Returns the count together
with the (possibly) filtered series. -/
def absurd_stage (s : Series) : Nat × Series :=
  let b := absurd_bounds s
  let absurd_cases := (s.filter (fun v => optLt v b.1 && optLt b.2 v)).length
  if absurd_cases ≠ 0 then
    let s1 := s.map (fun v => if optLt v b.1 then none else v)
    let s2 := s1.map (fun v => if optLt b.2 v then none else v)
    (absurd_cases, s2)
  else
    (absurd_cases, s)

/-- `__mauder2013__(x, q)` (source lines 71-82): median/MAD based spike
removal.  `bounds = (m - q*mad/0.6745, m + q*mad/0.6745)`; values below
`min(bounds)` or above `max(bounds)` become missing.  When all values are
missing the median is `NaN`, every comparison is `False` and the series is
returned unchanged. -/
def __mauder2013__ (s : Series) (q : ℚ) : Series :=
  match nanmedian s with
  | none => s
  | some x_med =>
    match nanmedian (s.map (Option.map (fun v => |v - x_med|))) with
    | none => s
    | some mad =>
      let lo := x_med - q * mad / (6745/10000)
      let hi := x_med + q * mad / (6745/10000)
      let bmin := min lo hi
      let bmax := max lo hi
      (s.map (fun v => if optLt v (some bmin) then none else v)).map
        (fun v => if optLt (some bmax) v then none else v)

/-- One step of `numpy.interp` over a non-empty knot list `pts`
(strictly increasing abscissae): constant extrapolation outside the knot
range, linear interpolation inside. -/
def interp1 : List (ℚ × ℚ) → ℚ → ℚ
  | [], _ => 0
  | [(_, fy)], _ => fy
  | (x1, y1) :: (x2, y2) :: rest, x =>
    if x ≤ x1 then y1
    else if x ≤ x2 then y1 + (x - x1) * (y2 - y1) / (x2 - x1)
    else interp1 ((x2, y2) :: rest) x

/-- The normalized time index `numpy.linspace(0, 1, N)` used by
`__Despike__`; in the source the grid points are `i / (N - 1)` and for
`N = 1` the single point is `0` (in Lean `0 / 0 = 0` gives the same). -/
def normGrid (N : Nat) : List ℚ :=
  (List.range N).map (fun i : ℕ => (i : ℚ) / ((N : ℚ) - 1))

/-- The loop body of `__Despike__` (source lines 36-68) for one column:
record the original gaps, run the absurd-value stage and the MAD stage,
then fill every gap by linear interpolation of the surviving points over
the normalized time index and finally restore the original gaps.
`numpy.interp` raises when no point survives (empty sample-point array);
that failure is modelled by `none`. -/
def despike_column (s : Series) (q : ℚ) : Option Series :=
  let ogap := s.map Option.isNone
  let s1 := (absurd_stage s).2
  let s2 := __mauder2013__ s1 q
  let N := s2.length
  let grid := normGrid N
  let pts := (grid.zip s2).filterMap (fun p => p.2.map (fun y => (p.1, y)))
  if pts.isEmpty then none
  else
    let interped := grid.map (interp1 pts)
    some (List.zipWith (fun og y => if og then none else some y) ogap interped)

/-- `__Despike__(dataframe, method="mauder2013", q)` (source lines 19-69):
despike every column of the table independently; an exception raised for
any column aborts the whole call (`none`). -/
def __Despike__ (tbl : RTable) (q : ℚ) : Option RTable :=
  tbl.mapM (fun p => (despike_column p.2 q).map (fun o => (p.1, o)))

/-- `Despike_Mauder_2013` (source lines 11-17): fixes
`method = "mauder2013"` and forwards; the MAD sensitivity defaults to
`q = 7`. -/
def Despike_Mauder_2013 (tbl : RTable) : Option RTable :=
  __Despike__ tbl 7

/-!
## Tilt-correction kernels (`opf_func_corrections.py`, lines 84-160)

Wind components are embedded as `List ℝ` (the rotation claims quantify
over series whose means are defined, so the missing marker plays no role
and `numpy.nanmean` coincides with the plain mean).
-/

/-- `numpy.nanmean` on a series without missing values: sum over count
(`0/0 = 0` for the empty list, matching no claim — all rotation claims
assume defined means). -/
noncomputable def nanmean (l : List ℝ) : ℝ :=
  l.sum / l.length

/-- The pointwise combination `a*cos c + b*sin c` of two series, used for
the `u` output of each elementary rotation in `__wilczak2001_2r__`. -/
noncomputable def rotPlus (c : ℝ) (a b : List ℝ) : List ℝ :=
  List.zipWith (fun x y => x * Real.cos c + y * Real.sin c) a b

/-- The pointwise combination `-a*sin c + b*cos c` of two series, used for
the `v`/`w` output of each elementary rotation in `__wilczak2001_2r__`. -/
noncomputable def rotMinus (c : ℝ) (a b : List ℝ) : List ℝ :=
  List.zipWith (fun x y => -x * Real.sin c + y * Real.cos c) a b

/-- `__wilczak2001_2r__(u, v, w, _theta, _phi)` (source lines 124-143):
double rotation.  When not supplied, `_theta = arctan(mean(v)/mean(u))`
and, after the first rotation, `_phi = arctan(mean(w1)/mean(u1))` — the
source uses `numpy.arctan` of the quotient of the means, not a
two-argument arctangent.  Returns the rotated components together with
the pair of angles. -/
noncomputable def __wilczak2001_2r__ (u v w : List ℝ) (_theta _phi : Option ℝ) :
    List ℝ × List ℝ × List ℝ × (ℝ × ℝ) :=
  let θ := _theta.getD (Real.arctan (nanmean v / nanmean u))
  let u1 := rotPlus θ u v
  let v1 := rotMinus θ u v
  let w1 := w
  let φ := _phi.getD (Real.arctan (nanmean w1 / nanmean u1))
  let u2 := rotPlus φ u1 w1
  let v2 := v1
  let w2 := rotMinus φ u1 w1
  (u2, v2, w2, (θ, φ))

/-- `__wilczak2001_3r__(u, v, w, _psi)` (source lines 146-160).  Its first
statement, `u2, v2, w2 = __wilczak2001_2r__(u, v, w)`, unpacks the
4-tuple returned by `__wilczak2001_2r__` into three names, which raises
`ValueError` on every call; the remaining lines of the source are
unreachable, so the function never returns a value. -/
def __wilczak2001_3r__ (_u _v _w : List ℝ) (_psi : Option ℝ) :
    Option (List ℝ × List ℝ × List ℝ × ℝ) :=
  none

/-- The dispatch method tags of `__Tilt_correction__` relevant to the
rotation claims (the planar-fit branch is exercised by no claim and is
not modelled). -/
inductive TiltMethod
  | r2
  | r3
deriving DecidableEq

/-- `__Tilt_correction__(dataframe, u, v, w, method)` (source lines
96-122) on the despatch branches the rotation claims exercise: the `2r`
branch applies `__wilczak2001_2r__` to the three wind columns and drops
the returned angles (source line 119 binds them to `_`); the `3r` branch
calls `__wilczak2001_3r__`, which always raises (modelled `none`). -/
noncomputable def __Tilt_correction__ (u v w : List ℝ) (method : TiltMethod) :
    Option (List ℝ × List ℝ × List ℝ) :=
  match method with
  | .r2 =>
    let r := __wilczak2001_2r__ u v w none none
    some (r.1, r.2.1, r.2.2.1)
  | .r3 =>
    (__wilczak2001_3r__ u v w none).map (fun r => (r.1, r.2.1, r.2.2.1))

/-- `Tilt_2_rotation` (source lines 84-86): sets `method='2r'`. -/
noncomputable def Tilt_2_rotation (u v w : List ℝ) :
    Option (List ℝ × List ℝ × List ℝ) :=
  __Tilt_correction__ u v w .r2

/-- `Tilt_3_rotation` (source lines 88-90): the source sets
`kw.update(method='2r')` — the literal `'2r'`, not `'3r'` — so the triple
rotation entry point despatches to the double rotation kernel. -/
noncomputable def Tilt_3_rotation (u v w : List ℝ) :
    Option (List ℝ × List ℝ × List ℝ) :=
  __Tilt_correction__ u v w .r2

/-!
## The correction pipeline (`opf_processing.py`)

`do_corrections` (source lines 55-130) is embedded over a `Dataset` of
named variables.  Variable data is carried as `List ℚ`; the claims about
the pipeline do not depend on the numeric content of the columns, so the
kernel invoked for a step is an argument (`registry`), modelling the
`getattr(opf_func_corrections, function_name)` lookup of source line 90
and a kernel that may raise (`Except.error`).
-/

/-- A dataset variable: label, data column and attribute list. -/
structure Variable where
  Label : String
  Data : List ℚ
  Attr : List (String × String)
deriving DecidableEq, Repr

/-- The PFP data structure restricted to what `do_corrections` touches:
the ordered collection of its variables. -/
abbrev Dataset := List Variable

/-- A kernel table: named columns of plain values, as produced by
`convert_ds_to_dataframe` (the `DateTime` index is not a column). -/
abbrev KTable := List (String × List ℚ)

/-- Modelled from the spec (§3 Dataset): `pfp_utils.GetVariable` reads the
variable stored under a label in the name → Variable mapping; the source
of `pfp_utils` is not part of this repository snapshot. -/
def GetVariable (ds : Dataset) (label : String) : Option Variable :=
  ds.find? (fun v => v.Label = label)

/-- Modelled from the spec (§3 Dataset): `pfp_utils.CreateVariable` writes
a variable into the name → Variable mapping — replacing the entry when the
label already exists, appending otherwise. -/
def CreateVariable (ds : Dataset) (x : Variable) : Dataset :=
  if (ds.find? (fun v => v.Label = x.Label)).isSome then
    ds.map (fun v => if v.Label = x.Label then x else v)
  else
    ds ++ [x]

/-- Modelled from the spec (§4.4 Merging): `pfp_utils.append_to_attribute`
appends the provenance entry to the variable's attribute list. -/
def append_to_attribute (attr : List (String × String)) (kv : String × String) :
    List (String × String) :=
  attr ++ [kv]

/-- `convert_ds_to_dataframe(ds, subset)` (source lines 258-277): the
demanded variables are the subset members that exist in the dataset, in
subset order — or every variable when the subset is empty — and the
resulting table holds their data columns (the `DateTime` column becomes
the index, so it is not a data column). -/
def convert_ds_to_dataframe (ds : Dataset) (subset : List String) : KTable :=
  let demanded :=
    if subset.isEmpty then ds.map (fun v => v.Label)
    else subset.filter (fun c => (GetVariable ds c).isSome)
  demanded.filterMap (fun c => (GetVariable ds c).map (fun v => (c, v.Data)))

/-- `pandas.DataFrame.empty`: true when the table has no columns or no
rows (source line 84 aborts the step on it; note that the message built
there reads the not-yet-assigned name `func`, so that branch in fact
raises `NameError`, which the handler of source line 117 catches — the
outcome, `return 0`, is the same). -/
def tableEmpty : KTable → Bool
  | [] => true
  | (_, c) :: _ => c.isEmpty

/-- The pandas shape of a kernel table: (number of rows, number of
columns), compared at source line 101. -/
def tableShape (t : KTable) : Nat × Nat :=
  ((match t with | [] => 0 | (_, c) :: _ => c.length), t.length)

/-- Column lookup `dataframe2[var_req]` (source line 112); a missing
column raises `KeyError` (`none`). -/
def dfColumn (t : KTable) (c : String) : Option (List ℚ) :=
  (t.find? (fun p => p.1 = c)).map (fun p => p.2)

/-- Source line 89: `func_name.replace('"','').split("(")[0]`. -/
def parseFuncName (s : String) : String :=
  (s.replace "\"" "").takeWhile (fun ch => ch ≠ '(')

/-!
## The processing-level registry (`opf_processing.py`, lines 225-244)
-/

/-- Python `dict.get(k, dflt)` over an association list in which a later
binding overwrites an earlier one (as in a dict comprehension). -/
def dictGet (d : List (String × String)) (k dflt : String) : String :=
  match (d.reverse).find? (fun p => p.1 = k) with
  | some p => p.2
  | none => dflt

/-- `get_all_recognized_corrections` (source lines 225-240), restricted to
the string fields each entry carries. -/
def get_all_recognized_corrections : List (String × List (String × String)) :=
  [("1", [("index", "1"), ("long_name", "Level 1 (unprocessed)"),
          ("short_name", "level_1"), ("aka", "Unprocessed"),
          ("description", ""), ("correction", "")]),
   ("2", [("index", "2"), ("long_name", "Level 2 (after despiking)"),
          ("short_name", "level_2"), ("aka", "Despike"),
          ("description", ""), ("correction", "Despike_")]),
   ("3", [("index", "3"), ("long_name", "Level 3 (after cross-wind correction)"),
          ("short_name", "level_3"), ("aka", "Cross-wind"),
          ("description", ""), ("correction", "")]),
   ("4", [("index", "4"), ("long_name", "Level 4 (after angle-of-attack correction"),
          ("short_name", "level_4"), ("aka", "Angle-of-Attack"),
          ("description", ""), ("correction", "")]),
   ("5", [("index", "5"), ("long_name", "Level 5 (after tilt correction)"),
          ("short_name", "level_5"), ("aka", "Tilt"),
          ("description", ""), ("correction", "Tilt_")]),
   ("6", [("index", "6"), ("long_name", "Level 6 (after time lag compensation)"),
          ("short_name", "level_6"), ("aka", "Time Lag"),
          ("description", ""), ("correction", "TimeLag_")]),
   ("7", [("index", "7"), ("long_name", "Level 7 (after detrending)"),
          ("short_name", "level_7"), ("aka", "Detrend"),
          ("description", ""), ("correction", "Detrend_")]),
   ("X", [("index", "X"), ("long_name", "Non-standard correction (unrecognized)"),
          ("short_name", "non-standard"), ("description", "")])]

/-- `get_corrections_from_key_value(key, value)` (source lines 243-244):
re-key the registry by each entry's `key` field (later entries overwrite
earlier ones) and look `value` up, defaulting to the empty dict. -/
def get_corrections_from_key_value (key value : String) :
    List (String × String) :=
  let rekeyed := get_all_recognized_corrections.map
    (fun p => (dictGet p.2 key "", p.2))
  match (rekeyed.reverse).find? (fun p => p.1 = value) with
  | some p => p.2
  | none => []

/-- Source lines 67-68 of `do_corrections`.  Line 67 evaluates to a
Python `str` — the matched entry's `short_name` field, or the default
`""` when `standard_name` matches no entry.  Line 68 then invokes
`.get(standard_name, "level_unrecognized")` on that string; `str` has no
attribute `get`, so the lookup raises `AttributeError` for every input,
before the `try` of source line 81 is entered. -/
def level_folder_of (standard_name : String) : Except String String :=
  let _lf : String :=
    dictGet (get_corrections_from_key_value "short_name" standard_name)
      "short_name" ""
  .error "AttributeError"

/-- One correction step as `do_corrections` consumes it: the `Attr` block
of the `Correction` section, the declared variable labels, and the output
file name.  The processing-level folder name is not configuration: each
loop iteration derives it from `standard_name` at source lines 67-68
(`level_folder_of`), a lookup that raises on every input. -/
structure Step where
  long_name : String
  standard_name : String
  func_name : String
  Saving : Bool
  Variables : List String
  out_filename : String
deriving DecidableEq, Repr

/-- The outcome of one iteration of the correction loop: `aborted ds`
models every `return 0` path (source lines 87, 100, 122 — including
exceptions caught by the handler of line 117), `applied ds` a step whose
merge loop completed. -/
inductive StepOutcome
  | aborted (ds : Dataset)
  | applied (ds : Dataset)
deriving DecidableEq, Repr

/-- Source lines 108-110: the archived pre-step copy of a variable, the
label suffixed with `"b4"` and the level folder. -/
def b4Var (lf : String) (var : Variable) : Variable :=
  { var with Label := var.Label ++ "b4" ++ lf }

/-- Source lines 111-114: the corrected live variable — same label, data
replaced by the kernel's output column, and the provenance attribute
`description_<standard_name> = <long_name> + " applied"` appended. -/
def corrVar (sn ln : String) (col : List ℚ) (var : Variable) : Variable :=
  { var with Data := col,
             Attr := append_to_attribute var.Attr
               ("description_" ++ sn, ln ++ " applied") }

/-- The merge loop of `do_corrections` (source lines 105-116): for each
requested variable, archive the pre-step copy under
`label + "b4" + level_folder`, then overwrite the live variable with the
kernel's column and the appended provenance attribute.  A failing
`GetVariable` or a missing output column raises mid-loop, which the
handler of source line 117 turns into `return 0` with the merges already
performed left in place. -/
def merge_vars (lf sn ln : String) (df2 : KTable) :
    Dataset → List String → StepOutcome
  | ds, [] => .applied ds
  | ds, v :: rest =>
    match GetVariable ds v with
    | none => .aborted ds
    | some var =>
      let ds1 := CreateVariable ds (b4Var lf var)
      match dfColumn df2 v with
      | none => .aborted ds1
      | some col =>
        merge_vars lf sn ln df2 (CreateVariable ds1 (corrVar sn ln col var)) rest

/-- The body of one iteration of the correction loop from the `try` of
source line 81 to line 122, given the kernel registry (`getattr` on
`opf_func_corrections`) and a level-folder string `lf` — the value the
lookup of lines 67-68 is meant to produce; in the source that lookup
raises instead (`level_folder_of`), so this definition isolates what
lines 81-122 do with a given folder name.  Abort on an empty selection,
an unresolvable function name, or a kernel exception; a kernel output
whose shape differs from the input only triggers `logger.warn` (source
lines 101-103) and the merge proceeds regardless. -/
def apply_step (registry : String → Option (KTable → Except String KTable))
    (ds : Dataset) (c : Step) (lf : String) : StepOutcome :=
  let df := convert_ds_to_dataframe ds c.Variables
  if tableEmpty df then .aborted ds
  else
    match registry (parseFuncName c.func_name) with
    | none => .aborted ds
    | some func =>
      match func df with
      | .error _ => .aborted ds
      | .ok df2 =>
        merge_vars lf c.standard_name c.long_name df2 ds c.Variables

/-- Modelled from the spec (§4.4 Persisting): the output path
`pfp_io.get_outfilenamefromcf` computes after source line 71 prepended the
level folder to the configured output file name. -/
def outName (c : Step) (lf : String) : String :=
  lf ++ "/" ++ c.out_filename

/-- The correction loop from the current step onward (source lines
56-129).  Each iteration first derives the processing-level folder from
the step's `standard_name` (source lines 67-68, `level_folder_of`); that
lookup raises `AttributeError` on every input, outside the `try` of line
81, and the exception propagates out of `do_corrections`.  The `.ok`
branch is the faithful translation of what lines 69-130 do with a folder
name: a `return 0` path ends the run at once with the writes performed so
far, and after the last step completes the unconditional final
`NetCDFWrite` of lines 127-129 is performed with the last step's output
path and the function returns 1. -/
def do_corrections_go (registry : String → Option (KTable → Except String KTable)) :
    Dataset → List (String × Dataset) → Step → List Step →
    Except String (Nat × Dataset × List (String × Dataset))
  | ds, writes, cur, rest =>
    match level_folder_of cur.standard_name with
    | .error e => .error e
    | .ok lf =>
      match apply_step registry ds cur lf with
      | .aborted ds' => .ok (0, ds', writes)
      | .applied ds' =>
        let writes' :=
          if cur.Saving then writes ++ [(outName cur lf, ds')] else writes
        match rest with
        | [] => .ok (1, ds', writes' ++ [(outName cur lf, ds')])
        | nxt :: rest' => do_corrections_go registry ds' writes' nxt rest'

/-- `do_corrections(main_ui, cf_level, ds)` (source lines 55-130) with the
cooperative stop flag unset and the advisory compliance check of source
line 73 (result only logged) elided: an uncaught exception is
`Except.error` naming it, otherwise the result is the return code, the
final dataset and the ordered `NetCDFWrite` calls (`outfilename × ds`).
With an empty `Corrections` section the final write of source line 128
reads the never-assigned loop variable `cf_corr` and raises `NameError`;
with a non-empty one the first iteration's level-folder lookup (source
lines 67-68) raises `AttributeError` before the per-step `try`. -/
def do_corrections (registry : String → Option (KTable → Except String KTable))
    (steps : List Step) (ds : Dataset) :
    Except String (Nat × Dataset × List (String × Dataset)) :=
  match steps with
  | [] => .error "NameError"
  | s :: rest => do_corrections_go registry ds [] s rest


/-!
## Compliance checks (`opf_compliance.py`)

Control-file values are strings parsed on demand; `GVal` distinguishes
values that `int(...)` parses, values that only `float(...)` parses, and
values neither parses, so the `try/except ValueError` branches of the
source can be evaluated.
-/

/-- A global-attribute value as the parsers see it. -/
inductive GVal
  | intv (n : ℤ)
  | floatv (q : ℚ)
  | strv (s : String)
deriving DecidableEq, Repr

/-- Python `float(v)`: succeeds on integer and float literals. -/
def pyFloat : GVal → Option ℚ
  | .intv n => some (n : ℚ)
  | .floatv q => some q
  | .strv _ => none

/-- Python `int(v)`: succeeds on integer literals only (`int("0.05")`
raises `ValueError`). -/
def pyInt : GVal → Option ℤ
  | .intv n => some n
  | .floatv _ => none
  | .strv _ => none

/-- Key lookup in a configuration section. -/
def cfgGet (g : List (String × GVal)) (k : String) : Option GVal :=
  (g.find? (fun p => p.1 = k)).map (fun p => p.2)

/-- `px_check_global_required(cfg, std, messages)` (source lines
135-174).  This function only ever appends to `messages["ERROR"]`, so the
result is the appended ERROR list; an uncaught exception is modelled by
`Except.error` naming it.  Two source hazards are modelled faithfully: a
non-numeric `time_step` reaches `if ts not in [...]` with `ts` unbound
(`NameError`), and the longitude range check at source line 168 reads
`lat` — the parsed latitude, unbound when no latitude parsed — instead of
`lon`, short-circuited only when `lon < -180` already holds. -/
def px_check_global_required (required : List String)
    (g : List (String × GVal)) : Except String (List String) :=
  let msgs0 := required.filterMap (fun item =>
    if cfgGet g item = none then
      some ("Global: " ++ item ++ " not in section (required)")
    else none)
  let stepTS : Except String (List String) :=
    match cfgGet g "time_step" with
    | none => .ok msgs0
    | some v =>
      match pyInt v with
      | none => .error "NameError"
      | some ts =>
        if (ts : ℚ) = 20 ∨ (ts : ℚ) = 10 ∨ (ts : ℚ) = 1/20 ∨ (ts : ℚ) = 1/10 then
          .ok msgs0
        else
          .ok (msgs0 ++ ["Global : 'time_step' must be 20, 10, 0.05 or 0.1"])
  match stepTS with
  | .error e => .error e
  | .ok msgs1 =>
    let latParsed : Option ℚ :=
      match cfgGet g "latitude" with
      | none => none
      | some v => pyFloat v
    let msgs2 :=
      match cfgGet g "latitude" with
      | none => msgs1
      | some v =>
        match pyFloat v with
        | none => msgs1 ++ ["Global: 'latitude' is not a number"]
        | some lat =>
          if lat < -90 ∨ 90 < lat then
            msgs1 ++ ["Global: 'latitude' must be between -90 and 90"]
          else msgs1
    match cfgGet g "longitude" with
    | none => .ok msgs2
    | some v =>
      match pyFloat v with
      | none => .ok (msgs2 ++ ["Global: 'longitude' is not a number"])
      | some lon =>
        if lon < -180 then
          .ok (msgs2 ++ ["Global: 'longitude' must be between -180 and 180"])
        else
          match latParsed with
          | none => .error "NameError"
          | some lat =>
            if 180 < lat then
              .ok (msgs2 ++ ["Global: 'longitude' must be between -180 and 180"])
            else .ok msgs2

/-- The three severity buckets of the messages dictionary. -/
structure Messages where
  ERROR : List String
  WARNING : List String
  INFO : List String
deriving DecidableEq, Repr

/-- The empty messages dictionary initialised at source line 113. -/
def emptyMessages : Messages :=
  ⟨[], [], []⟩

/-- The `Files` section fields `px_check_files` reads. -/
structure FilesSection where
  out_filename : Option String
  out_filepath : Option String
deriving DecidableEq, Repr

/-- The parts of a correction control file that `check_px_controlfile`
touches: the optional `Files` section and the optional `Variables`
section (as its list of labels). -/
structure PxCfg where
  Files : Option FilesSection
  Variables : Option (List String)
deriving DecidableEq, Repr

/-- Modelled from the spec (§6, output artifact path): `os.path.join`
of a folder and a file name. -/
def pathJoin (a b : String) : String :=
  a ++ "/" ++ b

/-- Modelled from the spec: `os.path.dirname`, the path up to the last
separator. -/
def dirname (p : String) : String :=
  ((p.splitOn "/").dropLast).foldr
    (fun seg acc => if acc = "" then seg else seg ++ "/" ++ acc) ""

/-- `px_check_files(cfg, std, messages)` (source lines 175-193): when the
`Files` section is absent the function returns without appending any
message of any severity; when it is present, a missing `out_filename` or
`out_filepath` is an ERROR, and a missing output directory only an INFO
(the directory is created).  `isdir` abstracts `os.path.isdir`. -/
def px_check_files (isdir : String → Bool) (cfg : PxCfg) : Messages :=
  match cfg.Files with
  | none => emptyMessages
  | some fs =>
    match fs.out_filename, fs.out_filepath with
    | some fn, some fp =>
      let out_dir := dirname (pathJoin fp fn)
      if isdir out_dir then emptyMessages
      else { emptyMessages with
               INFO := ["Files: " ++ out_dir ++ " doesn't exist, creating ..."] }
    | _, _ =>
      { emptyMessages with ERROR := ["Files: 'out_filename' not in section"] }

/-- `check_px_controlfile(cfg)` (source lines 94-124): inside a `try`,
read the labels of `cfg["Variables"]` (a missing section raises
`KeyError`, caught and turned into `ok = False`), load the standard
control file (`stdLoads` abstracts that this external read succeeds; its
contents are never used past its `Variables` listing), run
`px_check_files`, and succeed iff no ERROR message accumulated. -/
def check_px_controlfile (stdLoads : Bool) (isdir : String → Bool)
    (cfg : PxCfg) : Bool :=
  match cfg.Variables with
  | none => false
  | some _ =>
    if ¬stdLoads then false
    else (px_check_files isdir cfg).ERROR.length = 0

/-!
## Concrete pipeline instances used by the claim theorems
-/

/-- A one-variable dataset. -/
def dsC1 : Dataset :=
  [⟨"u", [1, 2], []⟩]

/-- A registry knowing only the kernel name `"Ident"` (identity kernel). -/
def regC1 : String → Option (KTable → Except String KTable) :=
  fun n => if n = "Ident" then some (fun t => .ok t) else none

/-- A step whose `func_name` resolves to no kernel. -/
def stepUnknown : Step :=
  ⟨"Despike test", "despike", "NoSuchCorrection", false, ["u"], "out.nc"⟩

/-- A step whose `func_name` resolves to the identity kernel. -/
def stepKnown : Step :=
  ⟨"Despike test", "despike", "Ident", false, ["u"], "out.nc"⟩

/-- A one-variable dataset for the shape-mismatch instance. -/
def dsC6 : Dataset :=
  [⟨"u", [1, 2], []⟩]

/-- A registry whose only kernel returns a table of a different shape
(two columns instead of one) than its input. -/
def regC6 : String → Option (KTable → Except String KTable) :=
  fun n =>
    if n = "Mismatch" then some (fun _ => .ok [("u", [5, 6]), ("extra", [0, 0])])
    else none

/-- The step invoking the shape-changing kernel. -/
def stepMis : Step :=
  ⟨"Tilt test", "tilt", "Mismatch", false, ["u"], "o.nc"⟩

/-- A registry whose only kernel returns a table missing the declared
column `u` (a column-set mismatch in the other direction). -/
def regC6missing : String → Option (KTable → Except String KTable) :=
  fun n =>
    if n = "MissingCol" then some (fun _ => .ok [("x", [9, 9])]) else none

/-- The step invoking the column-dropping kernel. -/
def stepMisCol : Step :=
  ⟨"Tilt test", "tilt", "MissingCol", false, ["u"], "o.nc"⟩

/-- A one-variable dataset for the successful-merge instance. -/
def dsC7 : Dataset :=
  [⟨"u", [1, 2], []⟩]

/-- A registry with one kernel replacing the `u` column. -/
def regC7 : String → Option (KTable → Except String KTable) :=
  fun n =>
    if n = "Replace" then some (fun _ => .ok [("u", [3, 4])]) else none

/-- The step invoking the replacing kernel. -/
def stepC7 : Step :=
  ⟨"Despike run", "despike", "Replace", false, ["u"], "r.nc"⟩

/-- A dataset that already carries the archive label `ub4level_2` (as
after re-reading previously corrected data or re-running the step). -/
def dsC7b : Dataset :=
  [⟨"u", [1, 2], []⟩, ⟨"ub4level_2", [9], []⟩]

/-- Follows the spec's words: the two-argument arctangent
`atan2(y, x)` with its standard quadrant conventions.  This definition is
the spec-side reference against which the source's single-argument
`arctan(mean(v)/mean(u))` (source line 131) is compared. -/
noncomputable def atan2spec (y x : ℝ) : ℝ :=
  if 0 < x then Real.arctan (y / x)
  else if x < 0 ∧ 0 ≤ y then Real.arctan (y / x) + Real.pi
  else if x < 0 ∧ y < 0 then Real.arctan (y / x) - Real.pi
  else if x = 0 ∧ 0 < y then Real.pi / 2
  else if x = 0 ∧ y < 0 then -(Real.pi / 2)
  else 0

/-!
## Helper lemmas about the Dataset mapping
-/

theorem GetVariable_label {ds : Dataset} {l : String} {v : Variable}
    (h : GetVariable ds l = some v) : v.Label = l := by
  have := List.find?_some h
  simpa using this

theorem ne_append_b4 (v lf : String) : v ≠ v ++ "b4" ++ lf := by
  intro h
  have hlen := congrArg String.length h
  rw [String.length_append, String.length_append] at hlen
  rw [show String.length "b4" = 2 from rfl] at hlen
  omega

theorem find?_map_set (x : Variable) (l : String) :
    ∀ ds : Dataset,
      (ds.map (fun v => if v.Label = x.Label then x else v)).find?
          (fun v => v.Label = l)
        = if l = x.Label
          then (ds.find? (fun v => v.Label = x.Label)).map (fun _ => x)
          else ds.find? (fun v => v.Label = l)
  | [] => by simp
  | v :: tl => by
    rw [List.map_cons]
    by_cases h1 : v.Label = x.Label
    · rw [if_pos h1]
      by_cases h2 : l = x.Label
      · rw [List.find?_cons_of_pos _ (by simp [h2]), if_pos h2,
          List.find?_cons_of_pos _ (by simp [h1]), Option.map_some']
      · have hx : ¬(x.Label = l) := fun h => h2 h.symm
        have hv : ¬(v.Label = l) := h1 ▸ hx
        conv_rhs => rw [if_neg h2, List.find?_cons_of_neg _ (by simpa using hv)]
        rw [List.find?_cons_of_neg _ (by simpa using hx),
          find?_map_set x l tl, if_neg h2]
    · rw [if_neg h1]
      by_cases h2 : l = x.Label
      · have hv : ¬(v.Label = l) := fun h => h1 (h.trans h2)
        conv_rhs => rw [if_pos h2, List.find?_cons_of_neg _ (by simpa using h1)]
        rw [List.find?_cons_of_neg _ (by simpa using hv),
          find?_map_set x l tl, if_pos h2]
      · by_cases h3 : v.Label = l
        · conv_rhs => rw [if_neg h2, List.find?_cons_of_pos _ (by simpa using h3)]
          rw [List.find?_cons_of_pos _ (by simpa using h3)]
        · conv_rhs => rw [if_neg h2, List.find?_cons_of_neg _ (by simpa using h3)]
          rw [List.find?_cons_of_neg _ (by simpa using h3),
            find?_map_set x l tl, if_neg h2]

theorem GetVariable_CreateVariable (ds : Dataset) (x : Variable) (l : String) :
    GetVariable (CreateVariable ds x) l
      = if l = x.Label then some x else GetVariable ds l := by
  unfold GetVariable CreateVariable
  by_cases hp : (ds.find? (fun v => v.Label = x.Label)).isSome
  · rw [if_pos hp, find?_map_set]
    by_cases h2 : l = x.Label
    · rw [if_pos h2, if_pos h2]
      obtain ⟨a, ha⟩ := Option.isSome_iff_exists.mp hp
      rw [ha, Option.map_some']
    · rw [if_neg h2, if_neg h2]
  · rw [if_neg hp, List.find?_append]
    have hnone : ds.find? (fun v => v.Label = x.Label) = none :=
      Option.not_isSome_iff_eq_none.mp hp
    by_cases h2 : l = x.Label
    · subst h2
      rw [if_pos rfl, hnone]
      simp [List.find?]
    · rw [if_neg h2]
      cases hfind : ds.find? (fun v => v.Label = l) with
      | some a => simp [hfind]
      | none =>
        have hx : ¬(x.Label = l) := fun h => h2 h.symm
        simp [hfind, List.find?, hx]

theorem length_CreateVariable (ds : Dataset) (x : Variable) :
    (CreateVariable ds x).length
      = if (GetVariable ds x.Label).isSome then ds.length else ds.length + 1 := by
  unfold CreateVariable GetVariable
  by_cases hp : (ds.find? (fun v => v.Label = x.Label)).isSome
  · simp [hp]
  · simp [hp]

/-- Specification of the merge loop on a successful step: distinct
requested variables, all present in the dataset and in the kernel output,
with fresh and pairwise distinct archive labels, produce the merged
dataset with the archived pre-step copies, the corrected live variables,
exactly `reqs.length` additional variables, and no other entry touched. -/
theorem merge_vars_success (lf sn ln : String) (df2 : KTable) :
    ∀ (reqs : List String) (ds : Dataset),
      reqs.Nodup →
      (∀ v ∈ reqs, (GetVariable ds v).isSome) →
      (∀ v ∈ reqs, (dfColumn df2 v).isSome) →
      (∀ v ∈ reqs, GetVariable ds (v ++ "b4" ++ lf) = none) →
      (∀ v ∈ reqs, (v ++ "b4" ++ lf) ∉ reqs) →
      ((reqs.map (fun v => v ++ "b4" ++ lf)).Nodup) →
      ∃ ds', merge_vars lf sn ln df2 ds reqs = .applied ds' ∧
        ds'.length = ds.length + reqs.length ∧
        (∀ v ∈ reqs, ∀ var, GetVariable ds v = some var →
          (GetVariable ds' (v ++ "b4" ++ lf)
              = some { var with Label := v ++ "b4" ++ lf } ∧
           ∀ col, dfColumn df2 v = some col →
             GetVariable ds' v
               = some { var with Data := col,
                                 Attr := var.Attr ++
                                   [("description_" ++ sn,
                                     ln ++ " applied")] })) ∧
        (∀ l, (∀ v ∈ reqs, l ≠ v ∧ l ≠ v ++ "b4" ++ lf) →
          GetVariable ds' l = GetVariable ds l) := by
  intro reqs
  induction reqs with
  | nil =>
    intro ds _ _ _ _ _ _
    exact ⟨ds, rfl, by simp, by simp, fun l _ => rfl⟩
  | cons v rest ih =>
    intro ds hnd hvars hcols hfresh hnotin hmnd
    obtain ⟨var, hvar⟩ :=
      Option.isSome_iff_exists.mp (hvars v (List.mem_cons_self v rest))
    obtain ⟨col, hcol⟩ :=
      Option.isSome_iff_exists.mp (hcols v (List.mem_cons_self v rest))
    have hvlab : var.Label = v := GetVariable_label hvar
    have hvne : v ≠ v ++ "b4" ++ lf := ne_append_b4 v lf
    have hblab : (b4Var lf var).Label = v ++ "b4" ++ lf := by
      simp [b4Var, hvlab]
    have hclab : (corrVar sn ln col var).Label = v := by
      simp [corrVar, hvlab]
    have hG1 : ∀ l, GetVariable (CreateVariable ds (b4Var lf var)) l
        = if l = v ++ "b4" ++ lf then some (b4Var lf var)
          else GetVariable ds l := by
      intro l
      rw [GetVariable_CreateVariable, hblab]
    have hG2 : ∀ l,
        GetVariable
          (CreateVariable (CreateVariable ds (b4Var lf var))
            (corrVar sn ln col var)) l
        = if l = v then some (corrVar sn ln col var)
          else GetVariable (CreateVariable ds (b4Var lf var)) l := by
      intro l
      rw [GetVariable_CreateVariable, hclab]
    have hfreshv : GetVariable ds (v ++ "b4" ++ lf) = none :=
      hfresh v (List.mem_cons_self v rest)
    have hlen1 : (CreateVariable ds (b4Var lf var)).length = ds.length + 1 := by
      rw [length_CreateVariable, hblab, hfreshv]
      simp
    have hvds1 : GetVariable (CreateVariable ds (b4Var lf var)) v = some var := by
      rw [hG1, if_neg hvne]
      exact hvar
    have hlen2 :
        (CreateVariable (CreateVariable ds (b4Var lf var))
          (corrVar sn ln col var)).length
        = ds.length + 1 := by
      rw [length_CreateVariable, hclab, hvds1]
      simp [hlen1]
    have hvnotinrest : v ∉ rest := (List.nodup_cons.mp hnd).1
    have hrestnd : rest.Nodup := (List.nodup_cons.mp hnd).2
    have htagv_notin : (v ++ "b4" ++ lf) ∉ v :: rest :=
      hnotin v (List.mem_cons_self v rest)
    have hrest_pres : ∀ u ∈ rest,
        GetVariable
          (CreateVariable (CreateVariable ds (b4Var lf var))
            (corrVar sn ln col var)) u
        = GetVariable ds u := by
      intro u hu
      have h1 : u ≠ v := fun h => hvnotinrest (h ▸ hu)
      have h2 : u ≠ v ++ "b4" ++ lf := by
        intro h
        exact htagv_notin (h ▸ List.mem_cons_of_mem v hu)
      rw [hG2, if_neg h1, hG1, if_neg h2]
    have htag_ne_v : ∀ u ∈ rest, u ++ "b4" ++ lf ≠ v := by
      intro u hu h
      exact hnotin u (List.mem_cons_of_mem v hu)
        (h ▸ List.mem_cons_self v rest)
    have htag_ne_tagv : ∀ u ∈ rest, u ++ "b4" ++ lf ≠ v ++ "b4" ++ lf := by
      intro u hu h
      have hne : v ++ "b4" ++ lf ∉ rest.map (fun z => z ++ "b4" ++ lf) :=
        (List.nodup_cons.mp hmnd).1
      have hmem : u ++ "b4" ++ lf ∈ rest.map (fun z => z ++ "b4" ++ lf) :=
        List.mem_map_of_mem _ hu
      exact hne (h ▸ hmem)
    have hrest_tags : ∀ u ∈ rest,
        GetVariable
          (CreateVariable (CreateVariable ds (b4Var lf var))
            (corrVar sn ln col var)) (u ++ "b4" ++ lf)
        = none := by
      intro u hu
      rw [hG2, if_neg (htag_ne_v u hu), hG1, if_neg (htag_ne_tagv u hu)]
      exact hfresh u (List.mem_cons_of_mem v hu)
    obtain ⟨ds', hmerge, hlen', hprops, hframe⟩ :=
      ih (CreateVariable (CreateVariable ds (b4Var lf var))
            (corrVar sn ln col var))
        hrestnd
        (fun u hu => by
          rw [hrest_pres u hu]
          exact hvars u (List.mem_cons_of_mem v hu))
        (fun u hu => hcols u (List.mem_cons_of_mem v hu))
        hrest_tags
        (fun u hu hmem =>
          hnotin u (List.mem_cons_of_mem v hu) (List.mem_cons_of_mem v hmem))
        ((List.nodup_cons.mp hmnd).2)
    refine ⟨ds', ?_, ?_, ?_, ?_⟩
    · show merge_vars lf sn ln df2 ds (v :: rest) = .applied ds'
      rw [merge_vars, hvar]
      simp only [hcol]
      exact hmerge
    · rw [hlen', hlen2, List.length_cons]
      omega
    · intro u hu var' hvar'
      rcases List.mem_cons.mp hu with hu | hu
      · subst hu
        have hvv : var' = var := by
          rw [hvar] at hvar'
          exact (Option.some.inj hvar').symm
        rw [hvv]
        constructor
        · have hfr : GetVariable ds' (u ++ "b4" ++ lf)
              = GetVariable
                  (CreateVariable (CreateVariable ds (b4Var lf var))
                    (corrVar sn ln col var)) (u ++ "b4" ++ lf) := by
            apply hframe
            intro z hz
            refine ⟨?_, (htag_ne_tagv z hz).symm⟩
            intro h
            exact htagv_notin (h ▸ List.mem_cons_of_mem u hz)
          rw [hfr, hG2, if_neg (Ne.symm hvne), hG1, if_pos rfl]
          simp [b4Var, hvlab]
        · intro col' hcol'
          have hcc : col' = col := by
            rw [hcol] at hcol'
            exact (Option.some.inj hcol').symm
          rw [hcc]
          have hfr : GetVariable ds' u
              = GetVariable
                  (CreateVariable (CreateVariable ds (b4Var lf var))
                    (corrVar sn ln col var)) u := by
            apply hframe
            intro z hz
            exact ⟨fun h => hvnotinrest (h ▸ hz), (htag_ne_v z hz).symm⟩
          rw [hfr, hG2, if_pos rfl]
          simp [corrVar, append_to_attribute]
      · have hvar'' : GetVariable
            (CreateVariable (CreateVariable ds (b4Var lf var))
              (corrVar sn ln col var)) u = some var' := by
          rw [hrest_pres u hu]
          exact hvar'
        exact hprops u hu var' hvar''
    · intro l hl
      have h1 := hl v (List.mem_cons_self v rest)
      rw [hframe l (fun u hu => hl u (List.mem_cons_of_mem v hu)),
        hG2, if_neg h1.1, hG1, if_neg h1.2]

/-!
## Claim theorems
-/

/-- C2: the claim states that despike replaces every value below
`min_bound` or above `max_bound` with missing before MAD detection and
that the reported discarded count equals the number of values outside
`[min_bound, max_bound]`.  The source (lines 48-56) instead multiplies
the two comparison masks, counting values that are simultaneously below
`min_bound` and above `max_bound`: on the series
`[10⁻⁶, 1, 2, 3, 4]` exactly one value lies outside
`[min_bound, max_bound]`, yet the count is `0` and nothing is replaced. -/
theorem C2_absurd_filter_never_fires :
    absurd_stage [some (1/1000000), some 1, some 2, some 3, some 4]
      = (0, [some (1/1000000), some 1, some 2, some 3, some 4]) ∧
    (([some (1/1000000), some 1, some 2, some 3, some 4] : Series).filter
        (fun v =>
          optLt v (absurd_bounds
            [some (1/1000000), some 1, some 2, some 3, some 4]).1 ||
          optLt (absurd_bounds
            [some (1/1000000), some 1, some 2, some 3, some 4]).2 v)).length
      = 1 :=
  ⟨by with_unfolding_all rfl, by with_unfolding_all rfl⟩

/-- C3: the claim states that `Tilt_3_rotation` applies double rotation
followed by a third rotation nullifying `mean(v*w)`.  In the source,
`Tilt_3_rotation` sets `method='2r'` (line 89), so it coincides with
`Tilt_2_rotation`; on the input `u=[1,1], v=[1,-1], w=[1,-1]` both
computed angles are `0`, the output equals the input, and
`mean(v*w) = 1 ≠ 0`.  Moreover the triple-rotation kernel
`__wilczak2001_3r__` itself raises on every call (4-tuple unpacked into
three names at line 151). -/
theorem C3_triple_rotation_is_double_rotation :
    (∀ u v w, Tilt_3_rotation u v w = Tilt_2_rotation u v w) ∧
    Tilt_3_rotation [1, 1] [1, -1] [1, -1]
      = some ([1, 1], [1, -1], [1, -1]) ∧
    nanmean (List.zipWith (fun a b => a * b) [(1 : ℝ), -1] [1, -1]) = 1 ∧
    __wilczak2001_3r__ [1, 1] [1, -1] [1, -1] none = none := by
  refine ⟨fun u v w => rfl, ?_, ?_, rfl⟩
  · have hv : nanmean [(1 : ℝ), -1] = 0 := by
      simp [nanmean]
    have hu : nanmean [(1 : ℝ), 1] = 1 := by
      norm_num [nanmean]
    simp [Tilt_3_rotation, __Tilt_correction__, __wilczak2001_2r__, hv, hu,
      rotPlus, rotMinus, Real.arctan_zero, Real.cos_zero, Real.sin_zero,
      nanmean]
  · norm_num [nanmean]

/-- Sum of the `-a*sin c + b*cos c` combination of two equal-length
series. -/
theorem sum_rotMinus (c : ℝ) (a : List ℝ) :
    ∀ b : List ℝ, a.length = b.length →
      (rotMinus c a b).sum = -Real.sin c * a.sum + Real.cos c * b.sum := by
  induction a with
  | nil =>
    intro b h
    have hb : b = [] := List.eq_nil_of_length_eq_zero (by simpa using h.symm)
    subst hb
    simp [rotMinus]
  | cons x xs ih =>
    intro b h
    cases b with
    | nil => simp at h
    | cons y ys =>
      have hl : xs.length = ys.length := by simpa using h
      have hc : rotMinus c (x :: xs) (y :: ys)
          = (-x * Real.sin c + y * Real.cos c) :: rotMinus c xs ys := rfl
      rw [hc, List.sum_cons, List.sum_cons, List.sum_cons, ih ys hl]
      ring

/-- The first rotation nullifies the mean of the transverse component:
for equal-length series with `nanmean a ≠ 0`, the mean of
`-a*sin c + b*cos c` at `c = arctan(nanmean b / nanmean a)` is zero. -/
theorem nanmean_rotMinus_arctan (a b : List ℝ)
    (hlen : a.length = b.length) (ha : nanmean a ≠ 0) :
    nanmean (rotMinus (Real.arctan (nanmean b / nanmean a)) a b) = 0 := by
  have hn : (a.length : ℝ) ≠ 0 := by
    intro h0
    apply ha
    unfold nanmean
    rw [h0, div_zero]
  have hsa : a.sum ≠ 0 := by
    intro h0
    apply ha
    unfold nanmean
    rw [h0, zero_div]
  have hr : nanmean b / nanmean a * a.sum = b.sum := by
    unfold nanmean
    rw [← hlen]
    field_simp
  have hsum : (rotMinus (Real.arctan (nanmean b / nanmean a)) a b).sum = 0 := by
    rw [sum_rotMinus _ _ _ hlen, Real.sin_arctan, Real.cos_arctan]
    have hrw : -(nanmean b / nanmean a /
          Real.sqrt (1 + (nanmean b / nanmean a) ^ 2)) * a.sum
          + 1 / Real.sqrt (1 + (nanmean b / nanmean a) ^ 2) * b.sum
        = (-(nanmean b / nanmean a * a.sum) + b.sum) /
            Real.sqrt (1 + (nanmean b / nanmean a) ^ 2) := by
      ring
    rw [hrw, hr]
    simp
  have hdef : nanmean (rotMinus (Real.arctan (nanmean b / nanmean a)) a b)
      = (rotMinus (Real.arctan (nanmean b / nanmean a)) a b).sum /
        ((rotMinus (Real.arctan (nanmean b / nanmean a)) a b).length : ℝ) :=
    rfl
  rw [hdef, hsum, zero_div]

/-- C4 (counterexample): the claim states that double rotation computes
`theta = atan2(mean(v), mean(u))`.  The source (line 131) computes
`arctan(mean(v)/mean(u))`, which differs whenever `mean(u) < 0`: on
`u = [-1], v = [1], w = [0]` the source's theta is `-π/4` while
`atan2(1, -1) = 3π/4`. -/
theorem C4_theta_is_not_atan2 :
    (__wilczak2001_2r__ [-1] [1] [0] none none).2.2.2.1
      ≠ atan2spec (nanmean [1]) (nanmean [-1]) := by
  have h1 : nanmean [(1 : ℝ)] = 1 := by norm_num [nanmean]
  have h2 : nanmean [(-1 : ℝ)] = -1 := by norm_num [nanmean]
  have hθ : (__wilczak2001_2r__ [-1] [1] [0] none none).2.2.2.1
      = Real.arctan (nanmean [1] / nanmean [-1]) := rfl
  rw [hθ, h1, h2]
  have harc : Real.arctan ((1 : ℝ) / (-1)) = -(Real.pi / 4) := by
    norm_num [Real.arctan_neg, Real.arctan_one]
  have hat : atan2spec 1 (-1) = Real.arctan ((1 : ℝ) / (-1)) + Real.pi := by
    unfold atan2spec
    rw [if_neg (by norm_num), if_pos (by norm_num)]
  rw [harc, hat, harc]
  intro h
  have := Real.pi_pos
  linarith

/-- C4 (amended): for equal-length wind components, double rotation
computes `theta = arctan(mean(v)/mean(u))` — the single-argument
arctangent of the quotient, which agrees with `atan2` only when
`mean(u) > 0` — and `phi = arctan(mean(w1)/mean(u1))` when the angles are
not supplied externally; provided `mean(u) ≠ 0` and `mean(u1) ≠ 0`, the
rotated output satisfies `mean(v) = 0` and `mean(w) = 0`, and the
computed angles are returned alongside the rotated components. -/
theorem C4_amended_double_rotation (u v w : List ℝ)
    (hvu : v.length = u.length) (hwu : w.length = u.length)
    (hu : nanmean u ≠ 0)
    (hu1 : nanmean (rotPlus (Real.arctan (nanmean v / nanmean u)) u v) ≠ 0) :
    (__wilczak2001_2r__ u v w none none).2.2.2
      = (Real.arctan (nanmean v / nanmean u),
         Real.arctan (nanmean w /
           nanmean (rotPlus (Real.arctan (nanmean v / nanmean u)) u v))) ∧
    nanmean (__wilczak2001_2r__ u v w none none).2.1 = 0 ∧
    nanmean (__wilczak2001_2r__ u v w none none).2.2.1 = 0 := by
  refine ⟨rfl, ?_, ?_⟩
  · show nanmean (rotMinus (Real.arctan (nanmean v / nanmean u)) u v) = 0
    exact nanmean_rotMinus_arctan u v hvu.symm hu
  · show nanmean
        (rotMinus
          (Real.arctan (nanmean w /
            nanmean (rotPlus (Real.arctan (nanmean v / nanmean u)) u v)))
          (rotPlus (Real.arctan (nanmean v / nanmean u)) u v) w) = 0
    apply nanmean_rotMinus_arctan
    · simp [rotPlus, hvu, hwu]
    · exact hu1

/-- Witness for C4 (amended) on `u = [1], v = [0], w = [0]`. -/
theorem C4_amended_double_rotation_witness :
    (__wilczak2001_2r__ [1] [0] [0] none none).2.2.2
      = (Real.arctan (nanmean [0] / nanmean [1]),
         Real.arctan (nanmean [0] /
           nanmean (rotPlus (Real.arctan (nanmean [0] / nanmean [1]))
             [1] [0]))) ∧
    nanmean (__wilczak2001_2r__ [1] [0] [0] none none).2.1 = 0 ∧
    nanmean (__wilczak2001_2r__ [1] [0] [0] none none).2.2.1 = 0 :=
  C4_amended_double_rotation [1] [0] [0] (by decide) (by decide)
    (by norm_num [nanmean])
    (by
      simp [nanmean, rotPlus, Real.arctan_zero, Real.cos_zero, Real.sin_zero])

/-- C5 (counterexample): the claim states that despike returns a sequence
of the same length for every input series.  On a series consisting of a
single missing value no sample point survives for `numpy.interp`, which
raises `ValueError` (modelled `none`): `__Despike__` returns no output at
all. -/
theorem C5_despike_raises_on_all_missing :
    __Despike__ [("c", [none])] 7 = none := by
  decide

/-- C1 (counterexample): the claim states that a step failure is caught
and logged with step context, leaves the Dataset in its pre-step state,
does not prevent subsequent steps from running nor the final persistence
write, and that no exception escapes the per-step boundary.  In the
source, the level-folder lookup of lines 67-68 raises `AttributeError`
inside the first loop iteration, before the `try` of line 81 is entered:
with a first step whose function name is unresolvable and a second,
well-formed step, `do_corrections` raises — nothing is caught or logged
at the step boundary, neither step runs, and no persistence write is
performed. -/
theorem C1_exception_escapes_step_boundary :
    do_corrections regC1 [stepUnknown, stepKnown] dsC1
      = .error "AttributeError" := by
  with_unfolding_all rfl

/-- C6 (counterexample): the claim states that a kernel output whose
shape differs from the input table aborts the step without merging.  The
source (lines 101-103) only emits `logger.warn` and merges anyway: with a
kernel returning a two-column table for a one-column input, the step body
completes as `applied` and the mismatched column is written into the
dataset. -/
theorem C6_shape_mismatch_is_merged :
    tableShape [("u", [5, 6]), ("extra", [0, 0])]
      ≠ tableShape (convert_ds_to_dataframe dsC6 ["u"]) ∧
    apply_step regC6 dsC6 stepMis "lvl"
      = .applied
          [⟨"u", [5, 6], [("description_tilt", "Tilt test applied")]⟩,
           ⟨"ub4lvl", [1, 2], []⟩] := by
  constructor
  · have h : tableShape (convert_ds_to_dataframe dsC6 ["u"]) = (2, 1) := by
      with_unfolding_all rfl
    rw [h]
    decide
  · with_unfolding_all rfl

/-- C8: the claim states that each step's `standard_name` is mapped
through the registry of recognized processing levels to a folder name,
with unmatched names mapping to an "unrecognized" bucket, and that the
mapping never fails.  In the source, line 67 evaluates to a plain string
(the matched `short_name`, here `"level_2"`, or `""`), and line 68 calls
`.get` on that string, raising `AttributeError` for every input: the
mapping never yields a folder name. -/
theorem C8_level_folder_always_raises :
    (∀ s, level_folder_of s = .error "AttributeError") ∧
    dictGet (get_corrections_from_key_value "short_name" "level_2")
      "short_name" "" = "level_2" ∧
    dictGet (get_corrections_from_key_value "short_name" "unmatched name")
      "short_name" "" = "" := by
  refine ⟨fun s => rfl, by decide, by decide⟩

/-- C9: the claim states that a longitude outside `[-180, 180]` gets an
ERROR appended.  The source (line 168) tests `lon < -180.0 or lat > 180.0`
— reading the latitude instead of the longitude on the upper side — so
`longitude = 200` with `latitude = 0` produces no ERROR at all, while the
lower side (`longitude = -200`), the latitude check and the in-range
cases behave as claimed. -/
theorem C9_longitude_upper_bound_unchecked :
    px_check_global_required []
      [("latitude", .floatv 0), ("longitude", .floatv 200)] = .ok [] ∧
    px_check_global_required []
      [("latitude", .floatv 0), ("longitude", .floatv (-200))]
      = .ok ["Global: 'longitude' must be between -180 and 180"] ∧
    px_check_global_required []
      [("latitude", .floatv 100), ("longitude", .floatv 0)]
      = .ok ["Global: 'latitude' must be between -90 and 90"] ∧
    px_check_global_required []
      [("latitude", .floatv 45), ("longitude", .floatv 90)] = .ok [] :=
  ⟨by with_unfolding_all rfl, by with_unfolding_all rfl,
   by with_unfolding_all rfl, by with_unfolding_all rfl⟩

/-- C10: the per-step files check appends no message of any severity when
the `Files` section is absent, so a configuration with a `Variables`
section but no `Files` section passes `check_px_controlfile` with
`ok = True`: the missing required section is never reported as an ERROR. -/
theorem C10_missing_files_section_passes (isdir : String → Bool) (cfg : PxCfg)
    (hv : cfg.Variables.isSome) (hf : cfg.Files = none) :
    check_px_controlfile true isdir cfg = true ∧
    px_check_files isdir cfg = emptyMessages := by
  obtain ⟨vs, hvs⟩ := Option.isSome_iff_exists.mp hv
  constructor
  · simp [check_px_controlfile, hvs, px_check_files, hf, emptyMessages]
  · simp [px_check_files, hf]

/-- Witness for C10 at a concrete configuration. -/
theorem C10_missing_files_section_passes_witness :
    check_px_controlfile true (fun _ => true) ⟨none, some ["u"]⟩ = true ∧
    px_check_files (fun _ => true) ⟨none, some ["u"]⟩ = emptyMessages :=
  C10_missing_files_section_passes (fun _ => true) ⟨none, some ["u"]⟩
    (by decide) (by decide)

/-- C1 (amended): on every run whose `Corrections` section is non-empty,
`do_corrections` raises `AttributeError` at the level-folder lookup of
source lines 67-68, inside the first loop iteration and before the
per-step `try` block is entered: no step failure is ever caught or
logged, the Dataset is never touched, subsequent steps do not run, no
persistence write is performed, and the exception escapes
`do_corrections` (it is caught only by the per-file handler of
`do_run_preprocess`, source lines 213-218). -/
theorem C1_amended_run_raises_attribute_error
    (registry : String → Option (KTable → Except String KTable))
    (ds : Dataset) (s : Step) (rest : List Step) :
    do_corrections registry (s :: rest) ds = .error "AttributeError" := by
  simp [do_corrections, do_corrections_go, level_folder_of]

/-- C6 (amended): a kernel output whose shape (row count or column set)
differs from the input WorkingTable is not detected as a step-fatal
contract violation: source lines 101-103 only log a warning and the merge
loop of lines 105-116 runs on the mismatched output.  When the output
still has a column for every declared variable (extra columns, changed
row count), the mismatched data is merged and the step body completes as
applied; when a declared column is missing from the output,
`dataframe2[var_req]` at line 112 raises `KeyError` partway through the
merge — after the current variable's archived copy was already written —
and the handler of line 117 turns that into `return 0`. -/
theorem C6_amended_mismatch_only_warned :
    (∀ (registry : String → Option (KTable → Except String KTable))
       (ds : Dataset) (c : Step) (lf : String)
       (f : KTable → Except String KTable) (df2 : KTable),
       tableEmpty (convert_ds_to_dataframe ds c.Variables) = false →
       registry (parseFuncName c.func_name) = some f →
       f (convert_ds_to_dataframe ds c.Variables) = .ok df2 →
       tableShape df2 ≠ tableShape (convert_ds_to_dataframe ds c.Variables) →
       c.Variables.Nodup →
       (∀ v ∈ c.Variables, (GetVariable ds v).isSome) →
       (∀ v ∈ c.Variables, (dfColumn df2 v).isSome) →
       (∀ v ∈ c.Variables, GetVariable ds (v ++ "b4" ++ lf) = none) →
       (∀ v ∈ c.Variables, (v ++ "b4" ++ lf) ∉ c.Variables) →
       ((c.Variables.map (fun v => v ++ "b4" ++ lf)).Nodup) →
       ∃ ds', apply_step registry ds c lf = .applied ds') ∧
    (∀ (registry : String → Option (KTable → Except String KTable))
       (ds : Dataset) (c : Step) (lf : String)
       (f : KTable → Except String KTable) (df2 : KTable)
       (v : String) (rest : List String) (var : Variable),
       c.Variables = v :: rest →
       tableEmpty (convert_ds_to_dataframe ds c.Variables) = false →
       registry (parseFuncName c.func_name) = some f →
       f (convert_ds_to_dataframe ds c.Variables) = .ok df2 →
       GetVariable ds v = some var →
       dfColumn df2 v = none →
       apply_step registry ds c lf
         = .aborted (CreateVariable ds (b4Var lf var))) := by
  constructor
  · intro registry ds c lf f df2 hne hreg hf _hshape hnd hvars hcols hfresh
      hnotin hmnd
    obtain ⟨ds', hmerge, -, -, -⟩ :=
      merge_vars_success lf c.standard_name c.long_name df2
        c.Variables ds hnd hvars hcols hfresh hnotin hmnd
    refine ⟨ds', ?_⟩
    unfold apply_step
    simp [hne, hreg, hf, hmerge]
  · intro registry ds c lf f df2 v rest var hcv hne hreg hf hvar hcol
    unfold apply_step
    simp only [hne, Bool.false_eq_true, if_false, hreg, hf]
    rw [hcv, merge_vars, hvar]
    simp [hcol]

/-- Witness for C6 (amended): the extra-column kernel output is merged
and the step completes, while the missing-column kernel output aborts
mid-merge with the archived copy already written into the dataset. -/
theorem C6_amended_mismatch_only_warned_witness :
    (∃ ds', apply_step regC6 dsC6 stepMis "lvl" = .applied ds') ∧
    apply_step regC6missing dsC6 stepMisCol "lvl"
      = .aborted (CreateVariable dsC6 (b4Var "lvl" ⟨"u", [1, 2], []⟩)) :=
  ⟨C6_amended_mismatch_only_warned.1 regC6 dsC6 stepMis "lvl"
      (fun _ => .ok [("u", [5, 6]), ("extra", [0, 0])])
      [("u", [5, 6]), ("extra", [0, 0])]
      (by with_unfolding_all rfl)
      (by with_unfolding_all rfl)
      (by with_unfolding_all rfl)
      (by with_unfolding_all decide)
      (by decide)
      (by with_unfolding_all decide)
      (by with_unfolding_all decide)
      (by with_unfolding_all decide)
      (by with_unfolding_all decide)
      (by with_unfolding_all decide),
   C6_amended_mismatch_only_warned.2 regC6missing dsC6 stepMisCol "lvl"
      (fun _ => .ok [("x", [9, 9])]) [("x", [9, 9])] "u" [] ⟨"u", [1, 2], []⟩
      (by with_unfolding_all rfl)
      (by with_unfolding_all rfl)
      (by with_unfolding_all rfl)
      (by with_unfolding_all rfl)
      (by with_unfolding_all rfl)
      (by with_unfolding_all rfl)⟩

/-- C7 (counterexample): the claim covers every successfully applied
step, but when a derived archive label already exists in the Dataset
(here a dataset that already carries `ub4level_2`, as after re-running
the correction or re-reading previously corrected data),
`CreateVariable` replaces the existing entry: the step applies
successfully, yet the variable count does not increase by the number of
declared variables. -/
theorem C7_preexisting_archive_label :
    apply_step regC7 dsC7b stepC7 "level_2"
      = .applied
          [⟨"u", [3, 4], [("description_despike", "Despike run applied")]⟩,
           ⟨"ub4level_2", [1, 2], []⟩] ∧
    ([⟨"u", [3, 4], [("description_despike", "Despike run applied")]⟩,
      ⟨"ub4level_2", [1, 2], []⟩] : Dataset).length
      ≠ dsC7b.length + stepC7.Variables.length := by
  constructor
  · with_unfolding_all rfl
  · with_unfolding_all decide

/-- C7 (amended): after a successfully applied step whose declared
variables are distinct, present in the Dataset and in the kernel output,
and whose derived archive labels `<name> + "b4" + <level-tag>` are fresh
— not already present in the Dataset, not among the declared names, and
pairwise distinct — the Dataset contains the archived pre-step copy under
the derived name holding the pre-correction data, the live variable holds
the corrected column with the provenance attribute
`description_<standard_name> = <long_name> + " applied"` appended, and
the variable count increases by exactly the number of declared variables
corrected.  (The freshness conditions are not needed for the step to
complete — when an archive label already exists, `CreateVariable`
replaces the entry and the count increases by less, see the
counterexample — they delimit when the claimed count increase holds.) -/
theorem C7_successful_step_archives_and_updates
    (registry : String → Option (KTable → Except String KTable))
    (ds : Dataset) (c : Step) (lf : String)
    (f : KTable → Except String KTable) (df2 : KTable)
    (hne : tableEmpty (convert_ds_to_dataframe ds c.Variables) = false)
    (hreg : registry (parseFuncName c.func_name) = some f)
    (hf : f (convert_ds_to_dataframe ds c.Variables) = .ok df2)
    (hnd : c.Variables.Nodup)
    (hvars : ∀ v ∈ c.Variables, (GetVariable ds v).isSome)
    (hcols : ∀ v ∈ c.Variables, (dfColumn df2 v).isSome)
    (hfresh : ∀ v ∈ c.Variables,
      GetVariable ds (v ++ "b4" ++ lf) = none)
    (hnotin : ∀ v ∈ c.Variables,
      (v ++ "b4" ++ lf) ∉ c.Variables)
    (hmnd : (c.Variables.map (fun v => v ++ "b4" ++ lf)).Nodup) :
    ∃ ds', apply_step registry ds c lf = .applied ds' ∧
      ds'.length = ds.length + c.Variables.length ∧
      (∀ v ∈ c.Variables, ∀ var, GetVariable ds v = some var →
        (GetVariable ds' (v ++ "b4" ++ lf)
            = some { var with Label := v ++ "b4" ++ lf } ∧
         ∀ col, dfColumn df2 v = some col →
           GetVariable ds' v
             = some { var with Data := col,
                               Attr := var.Attr ++
                                 [("description_" ++ c.standard_name,
                                   c.long_name ++ " applied")] })) := by
  obtain ⟨ds', hmerge, hlen, hprops, -⟩ :=
    merge_vars_success lf c.standard_name c.long_name df2
      c.Variables ds hnd hvars hcols hfresh hnotin hmnd
  refine ⟨ds', ?_, hlen, hprops⟩
  unfold apply_step
  simp [hne, hreg, hf, hmerge]

/-!
## Quantile lemmas for the despike claims
-/

theorem toNat_floor_cast_le {pos : ℚ} (h0 : 0 ≤ pos) :
    ((⌊pos⌋.toNat : ℚ)) ≤ pos := by
  have h2 : ((⌊pos⌋.toNat : ℤ) : ℚ) = ((⌊pos⌋ : ℤ) : ℚ) := by
    rw [Int.toNat_of_nonneg (Int.floor_nonneg.mpr h0)]
  calc ((⌊pos⌋.toNat : ℚ)) = ((⌊pos⌋.toNat : ℤ) : ℚ) := by push_cast; ring
    _ = ((⌊pos⌋ : ℤ) : ℚ) := h2
    _ ≤ pos := Int.floor_le pos

theorem lt_toNat_floor_add_one {pos : ℚ} (h0 : 0 ≤ pos) :
    pos < (⌊pos⌋.toNat : ℚ) + 1 := by
  have h2 : ((⌊pos⌋.toNat : ℤ) : ℚ) = ((⌊pos⌋ : ℤ) : ℚ) := by
    rw [Int.toNat_of_nonneg (Int.floor_nonneg.mpr h0)]
  calc pos < (⌊pos⌋ : ℚ) + 1 := Int.lt_floor_add_one pos
    _ = ((⌊pos⌋.toNat : ℤ) : ℚ) + 1 := by rw [h2]
    _ = (⌊pos⌋.toNat : ℚ) + 1 := by push_cast; ring

theorem floor_toNat_lt {pos : ℚ} {n : ℕ} (h0 : 0 ≤ pos)
    (hub : pos ≤ (n : ℚ) - 1) : ⌊pos⌋.toNat < n := by
  have h3 : 0 ≤ ⌊pos⌋ := Int.floor_nonneg.mpr h0
  have h2 : ⌊pos⌋ ≤ (n : ℤ) - 1 := by
    have h4 : pos < ((n : ℤ) - 1 : ℤ) + 1 := by push_cast; linarith
    exact Int.floor_le_iff.mpr (by push_cast at h4 ⊢; linarith)
  omega

theorem quantAt_of_some_some {vs : List ℚ} {a b : ℚ} {pos : ℚ}
    (ha : vs.get? (⌊pos⌋.toNat) = some a)
    (hb : vs.get? (⌊pos⌋.toNat + 1) = some b) :
    quantAt vs pos = a + (pos - ((⌊pos⌋.toNat : ℚ))) * (b - a) := by
  unfold quantAt
  rw [ha, hb]

theorem quantAt_of_some_none {vs : List ℚ} {a : ℚ} {pos : ℚ}
    (ha : vs.get? (⌊pos⌋.toNat) = some a)
    (hb : vs.get? (⌊pos⌋.toNat + 1) = none) :
    quantAt vs pos = a := by
  unfold quantAt
  rw [ha, hb]

theorem get_le_quantAt (vs : List ℚ) (hs : List.Sorted (· ≤ ·) vs) {pos : ℚ}
    (h0 : 0 ≤ pos) (hi : ⌊pos⌋.toNat < vs.length) :
    vs.get ⟨⌊pos⌋.toNat, hi⟩ ≤ quantAt vs pos := by
  have hγ := toNat_floor_cast_le h0
  cases hb : vs.get? (⌊pos⌋.toNat + 1) with
  | none =>
    rw [quantAt_of_some_none (List.get?_eq_get hi) hb]
  | some b =>
    rw [quantAt_of_some_some (List.get?_eq_get hi) hb]
    obtain ⟨hib, hbe⟩ := List.get?_eq_some.mp hb
    have hab : vs.get ⟨⌊pos⌋.toNat, hi⟩ ≤ b := by
      rw [← hbe]
      exact List.Sorted.rel_get_of_le hs (by simp)
    nlinarith

theorem quantAt_le_get_succ (vs : List ℚ) (hs : List.Sorted (· ≤ ·) vs)
    {pos : ℚ} (h0 : 0 ≤ pos) (hib : ⌊pos⌋.toNat + 1 < vs.length) :
    quantAt vs pos ≤ vs.get ⟨⌊pos⌋.toNat + 1, hib⟩ := by
  have hi : ⌊pos⌋.toNat < vs.length := by omega
  have hγ0 := toNat_floor_cast_le h0
  have hγ1 := lt_toNat_floor_add_one h0
  rw [quantAt_of_some_some (List.get?_eq_get hi) (List.get?_eq_get hib)]
  have hab : vs.get ⟨⌊pos⌋.toNat, hi⟩ ≤ vs.get ⟨⌊pos⌋.toNat + 1, hib⟩ :=
    List.Sorted.rel_get_of_le hs (by simp)
  nlinarith

theorem quantAt_mono (vs : List ℚ) (hs : List.Sorted (· ≤ ·) vs)
    {pos pos' : ℚ} (h0 : 0 ≤ pos) (hpp : pos ≤ pos')
    (hub : pos' ≤ (vs.length : ℚ) - 1) :
    quantAt vs pos ≤ quantAt vs pos' := by
  have h0' : 0 ≤ pos' := h0.trans hpp
  have hi'_lt : ⌊pos'⌋.toNat < vs.length := floor_toNat_lt h0' hub
  have hii : ⌊pos⌋.toNat ≤ ⌊pos'⌋.toNat := by
    have hle := Int.floor_le_floor hpp
    have h3 : 0 ≤ ⌊pos⌋ := Int.floor_nonneg.mpr h0
    omega
  have hi_lt : ⌊pos⌋.toNat < vs.length := lt_of_le_of_lt hii hi'_lt
  rcases lt_or_eq_of_le hii with hlt | heq
  · have hib : ⌊pos⌋.toNat + 1 < vs.length := by omega
    calc quantAt vs pos ≤ vs.get ⟨⌊pos⌋.toNat + 1, hib⟩ :=
          quantAt_le_get_succ vs hs h0 hib
      _ ≤ vs.get ⟨⌊pos'⌋.toNat, hi'_lt⟩ :=
          List.Sorted.rel_get_of_le hs (by simp [Fin.mk_le_mk]; omega)
      _ ≤ quantAt vs pos' := get_le_quantAt vs hs h0' hi'_lt
  · have hγ0 := toNat_floor_cast_le h0
    have hγ0' := toNat_floor_cast_le h0'
    cases hb : vs.get? (⌊pos'⌋.toNat + 1) with
    | none =>
      have hb' : vs.get? (⌊pos⌋.toNat + 1) = none := by rw [heq]; exact hb
      rw [quantAt_of_some_none (List.get?_eq_get hi_lt) hb',
        quantAt_of_some_none (List.get?_eq_get hi'_lt) hb]
      have : vs.get ⟨⌊pos⌋.toNat, hi_lt⟩ = vs.get ⟨⌊pos'⌋.toNat, hi'_lt⟩ := by
        congr 1
        exact Fin.ext heq
      rw [this]
    | some b =>
      obtain ⟨hib', hbe⟩ := List.get?_eq_some.mp hb
      have hb' : vs.get? (⌊pos⌋.toNat + 1) = some b := by rw [heq]; exact hb
      rw [quantAt_of_some_some (List.get?_eq_get hi_lt) hb',
        quantAt_of_some_some (List.get?_eq_get hi'_lt) hb]
      have hgg : vs.get ⟨⌊pos⌋.toNat, hi_lt⟩ = vs.get ⟨⌊pos'⌋.toNat, hi'_lt⟩ := by
        congr 1
        exact Fin.ext heq
      rw [hgg, heq]
      have hab : vs.get ⟨⌊pos'⌋.toNat, hi'_lt⟩ ≤ b := by
        rw [← hbe]
        exact List.Sorted.rel_get_of_le hs (by simp)
      nlinarith

theorem head_le_quantAt (vs : List ℚ) (hs : List.Sorted (· ≤ ·) vs)
    {pos : ℚ} (h0 : 0 ≤ pos) (hub : pos ≤ (vs.length : ℚ) - 1)
    (h0lt : 0 < vs.length) :
    vs.get ⟨0, h0lt⟩ ≤ quantAt vs pos := by
  have hi : ⌊pos⌋.toNat < vs.length := floor_toNat_lt h0 hub
  calc vs.get ⟨0, h0lt⟩ ≤ vs.get ⟨⌊pos⌋.toNat, hi⟩ :=
        List.Sorted.rel_get_of_le hs (by simp)
    _ ≤ quantAt vs pos := get_le_quantAt vs hs h0 hi

/-- Witness for C7 at a concrete one-variable step: the archived copy
`ub4level_2` holds the old data, `u` holds the kernel output with the
provenance attribute, and the dataset grew by one variable. -/
theorem C7_successful_step_archives_and_updates_witness :
    ∃ ds', apply_step regC7 dsC7 stepC7 "level_2" = .applied ds' ∧
      ds'.length = dsC7.length + stepC7.Variables.length ∧
      (∀ v ∈ stepC7.Variables, ∀ var, GetVariable dsC7 v = some var →
        (GetVariable ds' (v ++ "b4" ++ "level_2")
            = some { var with Label := v ++ "b4" ++ "level_2" } ∧
         ∀ col, dfColumn [("u", [3, 4])] v = some col →
           GetVariable ds' v
             = some { var with Data := col,
                               Attr := var.Attr ++
                                 [("description_" ++ stepC7.standard_name,
                                   stepC7.long_name ++ " applied")] })) :=
  C7_successful_step_archives_and_updates regC7 dsC7 stepC7 "level_2"
    (fun _ => .ok [("u", [3, 4])]) [("u", [3, 4])]
    (by with_unfolding_all rfl)
    (by with_unfolding_all rfl)
    (by with_unfolding_all rfl)
    (by decide)
    (by with_unfolding_all decide)
    (by with_unfolding_all decide)
    (by with_unfolding_all decide)
    (by with_unfolding_all decide)
    (by with_unfolding_all decide)

/-!
## Despike totality lemmas
-/

theorem sortedVals_sorted (s : Series) :
    List.Sorted (fun a b => a ≤ b) (sortedVals s) :=
  List.sorted_insertionSort _ _

theorem sortedVals_perm (s : Series) :
    List.Perm (sortedVals s) (someVals s) :=
  List.perm_insertionSort _ _

theorem sortedVals_length (s : Series) :
    (sortedVals s).length = (someVals s).length :=
  (sortedVals_perm s).length_eq

theorem nanquantile_of_ne_nil {s : Series} (hx : someVals s ≠ []) (q : ℚ) :
    nanquantile s q
      = some (quantAt (sortedVals s)
          (q * (((sortedVals s).length : ℚ) - 1))) := by
  unfold nanquantile
  rw [if_neg]
  intro hemp
  rw [List.isEmpty_iff] at hemp
  apply hx
  have := sortedVals_length s
  rw [hemp] at this
  exact List.eq_nil_of_length_eq_zero this.symm

theorem nanquantile_mono {s : Series} (hx : someVals s ≠ []) (q q' : ℚ)
    (h0 : 0 ≤ q) (hqq : q ≤ q') (hq1 : q' ≤ 1) :
    ∃ a b, nanquantile s q = some a ∧ nanquantile s q' = some b ∧ a ≤ b := by
  refine ⟨_, _, nanquantile_of_ne_nil hx q, nanquantile_of_ne_nil hx q', ?_⟩
  have hlen : 1 ≤ (sortedVals s).length := by
    rw [sortedVals_length s]
    exact List.length_pos.mpr hx
  have hnn : (0 : ℚ) ≤ ((sortedVals s).length : ℚ) - 1 := by
    have : (1 : ℚ) ≤ ((sortedVals s).length : ℚ) := by exact_mod_cast hlen
    linarith
  apply quantAt_mono (sortedVals s) (sortedVals_sorted s)
  · exact mul_nonneg h0 hnn
  · exact mul_le_mul_of_nonneg_right hqq hnn
  · calc q' * (((sortedVals s).length : ℚ) - 1)
        ≤ 1 * (((sortedVals s).length : ℚ) - 1) :=
          mul_le_mul_of_nonneg_right hq1 hnn
      _ = ((sortedVals s).length : ℚ) - 1 := one_mul _

/-- The absurd-value stage is the identity on every series and always
reports zero discarded values: since `min_bound ≤ max_bound` always
holds, no value satisfies the source's conjunction
`(x < min_bound) * (x > max_bound)`, so the replacement branch is never
taken. -/
theorem absurd_stage_id (s : Series) : absurd_stage s = (0, s) := by
  have hcount : (s.filter (fun v =>
      optLt v (absurd_bounds s).1 && optLt (absurd_bounds s).2 v)).length
      = 0 := by
    rw [List.length_eq_zero, List.filter_eq_nil_iff]
    intro v hv
    by_cases hx : someVals s = []
    · have hvs : sortedVals s = [] := by
        unfold sortedVals
        rw [hx]
        rfl
      have hbn : absurd_bounds s = (none, none) := by
        unfold absurd_bounds nanquantile
        rw [hvs]
        rfl
      rw [hbn]
      cases v <;> simp [optLt]
    · obtain ⟨a, b, ha, hb, hab⟩ :=
        nanquantile_mono hx (1/100) (99/100)
          (by norm_num) (by norm_num) (by norm_num)
      have hbounds : absurd_bounds s
          = (some ((if 0 < a then (1:ℚ)/1000 else 1000) * a),
             some ((if 0 < b then (1000:ℚ) else 1/1000) * b)) := by
        unfold absurd_bounds
        rw [ha, hb]
        rfl
      have hmbxb : (if 0 < a then (1:ℚ)/1000 else 1000) * a
          ≤ (if 0 < b then (1000:ℚ) else 1/1000) * b := by
        by_cases hA : 0 < a
        · have hB : 0 < b := lt_of_lt_of_le hA hab
          rw [if_pos hA, if_pos hB]
          nlinarith
        · push_neg at hA
          by_cases hB : 0 < b
          · rw [if_neg (not_lt.mpr hA), if_pos hB]
            nlinarith
          · push_neg at hB
            rw [if_neg (not_lt.mpr hA), if_neg (not_lt.mpr hB)]
            nlinarith
      rw [hbounds]
      cases v with
      | none => simp [optLt]
      | some x =>
        simp only [optLt, Bool.and_eq_true, decide_eq_true_eq, not_and]
        intro h1 h2
        linarith
  simp only [absurd_stage]
  rw [hcount]
  simp

theorem someVals_map (s : Series) (f : ℚ → ℚ) :
    someVals (s.map (Option.map f)) = (someVals s).map f := by
  unfold someVals
  rw [List.filterMap_map, List.map_filterMap]
  rfl

theorem mauder_length (s : Series) (q : ℚ) :
    (__mauder2013__ s q).length = s.length := by
  unfold __mauder2013__
  cases h1 : nanmedian s with
  | none => simp
  | some m =>
    cases h2 : nanmedian (s.map (Option.map (fun v => |v - m|))) with
    | none => simp [h2]
    | some mad => simp [h2]

/-- At least one non-missing value survives the MAD filter: the value with
the smallest deviation from the median has deviation at most the MAD,
which lies inside the `q = 7` spike bounds. -/
theorem mauder_keeps_one (s : Series) (hx : someVals s ≠ []) :
    ∃ i x, (__mauder2013__ s 7).get? i = some (some x) := by
  obtain ⟨m, hm⟩ : ∃ m, nanmedian s = some m :=
    ⟨_, nanquantile_of_ne_nil hx (1/2)⟩
  have hdv : someVals (s.map (Option.map (fun v => |v - m|)))
      = (someVals s).map (fun v => |v - m|) := someVals_map s _
  have hdx : someVals (s.map (Option.map (fun v => |v - m|))) ≠ [] := by
    rw [hdv]
    simpa using hx
  obtain ⟨mad, hmad⟩ : ∃ mad,
      nanmedian (s.map (Option.map (fun v => |v - m|))) = some mad :=
    ⟨_, nanquantile_of_ne_nil hdx (1/2)⟩
  have hlen0 : 0 < (sortedVals (s.map (Option.map (fun v => |v - m|)))).length := by
    rw [sortedVals_length]
    exact List.length_pos.mpr hdx
  have hmadq : mad = quantAt (sortedVals (s.map (Option.map (fun v => |v - m|))))
      ((1/2) * (((sortedVals (s.map (Option.map (fun v => |v - m|)))).length : ℚ)
        - 1)) := by
    have hq := nanquantile_of_ne_nil hdx (1/2)
    rw [show nanmedian (s.map (Option.map (fun v => |v - m|)))
        = nanquantile (s.map (Option.map (fun v => |v - m|))) (1/2) from rfl,
      hq] at hmad
    exact (Option.some.inj hmad).symm
  have hnn1 : (0:ℚ)
      ≤ ((sortedVals (s.map (Option.map (fun v => |v - m|)))).length : ℚ) - 1 := by
    have : (1:ℚ)
        ≤ ((sortedVals (s.map (Option.map (fun v => |v - m|)))).length : ℚ) := by
      exact_mod_cast hlen0
    linarith
  have hd0_le : (sortedVals (s.map (Option.map (fun v => |v - m|)))).get
      ⟨0, hlen0⟩ ≤ mad := by
    rw [hmadq]
    apply head_le_quantAt _ (sortedVals_sorted _)
    · exact mul_nonneg (by norm_num) hnn1
    · nlinarith
  have hd0_mem : (sortedVals (s.map (Option.map (fun v => |v - m|)))).get
      ⟨0, hlen0⟩ ∈ someVals (s.map (Option.map (fun v => |v - m|))) :=
    ((sortedVals_perm _).mem_iff).mp (List.get_mem _ _ _)
  rw [hdv] at hd0_mem
  obtain ⟨v, hvmem, hveq⟩ := List.mem_map.mp hd0_mem
  have hd0nn : 0 ≤ (sortedVals (s.map (Option.map (fun v => |v - m|)))).get
      ⟨0, hlen0⟩ := by
    rw [← hveq]
    positivity
  have hmadnn : 0 ≤ mad := le_trans hd0nn hd0_le
  have hvdev : |v - m| ≤ mad := by
    rw [hveq]
    exact hd0_le
  obtain ⟨o, homem, hoid⟩ := List.mem_filterMap.mp hvmem
  have ho : o = some v := by simpa using hoid
  obtain ⟨i, hi⟩ := List.get?_of_mem homem
  rw [ho] at hi
  refine ⟨i, v, ?_⟩
  unfold __mauder2013__
  simp only [hm, hmad]
  have hB0 : (0:ℚ) ≤ 7 * mad / (6745/10000) := by positivity
  have hB : mad ≤ 7 * mad / (6745/10000) := by nlinarith
  have habs := abs_le.mp hvdev
  have hlo : m - 7 * mad / (6745/10000) ≤ v := by linarith
  have hhi : v ≤ m + 7 * mad / (6745/10000) := by linarith
  have hlohi : m - 7 * mad / (6745/10000) ≤ m + 7 * mad / (6745/10000) := by
    linarith
  rw [List.get?_map, List.get?_map, hi]
  simp [optLt, min_eq_left hlohi, max_eq_right hlohi,
    not_lt.mpr hlo, not_lt.mpr hhi]

theorem normGrid_length (N : ℕ) : (normGrid N).length = N := by
  unfold normGrid
  exact (List.length_map _ _).trans (List.length_range N)

/-- Unfolding equation of `despike_column` (pure zeta expansion). -/
theorem despike_column_eq (s : Series) (q : ℚ) :
    despike_column s q =
      (if (((normGrid (__mauder2013__ (absurd_stage s).2 q).length).zip
            (__mauder2013__ (absurd_stage s).2 q)).filterMap
            (fun p => p.2.map (fun y => (p.1, y)))).isEmpty then none
       else some (List.zipWith (fun og y => if og then none else some y)
         (s.map Option.isNone)
         ((normGrid (__mauder2013__ (absurd_stage s).2 q).length).map
           (interp1
             (((normGrid (__mauder2013__ (absurd_stage s).2 q).length).zip
               (__mauder2013__ (absurd_stage s).2 q)).filterMap
               (fun p => p.2.map (fun y => (p.1, y)))))))) :=
  rfl

/-- Specification of one despike column on a series with at least one
non-missing value: the call succeeds, preserves the length, restores the
original gaps as missing, and fills every originally non-missing index
with a value. -/
theorem despike_column_spec (s : Series) (hx : someVals s ≠ []) :
    ∃ o, despike_column s 7 = some o ∧ o.length = s.length ∧
      (∀ j, s.get? j = some none → o.get? j = some none) ∧
      (∀ j x, s.get? j = some (some x) → ∃ y, o.get? j = some (some y)) := by
  have hstage : (absurd_stage s).2 = s := by rw [absurd_stage_id]
  obtain ⟨i, x0, hsurv⟩ := mauder_keeps_one s hx
  have hmlen : (__mauder2013__ s 7).length = s.length := mauder_length s 7
  have hilt : i < (__mauder2013__ s 7).length := by
    by_contra hge
    rw [List.get?_eq_none.mpr (by omega)] at hsurv
    exact Option.noConfusion hsurv
  have higrid : i < (normGrid (__mauder2013__ s 7).length).length := by
    rw [normGrid_length]
    exact hilt
  have hpair : ((normGrid (__mauder2013__ s 7).length).zip
      (__mauder2013__ s 7)).get? i
      = some ((normGrid (__mauder2013__ s 7).length).get ⟨i, higrid⟩,
              some x0) := by
    apply (List.get?_zip_eq_some _ _ _ _).mpr
    exact ⟨List.get?_eq_get higrid, hsurv⟩
  have hmem : ((normGrid (__mauder2013__ s 7).length).get ⟨i, higrid⟩, some x0)
      ∈ (normGrid (__mauder2013__ s 7).length).zip (__mauder2013__ s 7) :=
    List.get?_mem hpair
  have hptsne : (((normGrid (__mauder2013__ s 7).length).zip
      (__mauder2013__ s 7)).filterMap
      (fun p => p.2.map (fun y => (p.1, y)))) ≠ [] := by
    intro hemp
    rw [List.filterMap_eq_nil_iff] at hemp
    have := hemp _ hmem
    simp at this
  refine ⟨List.zipWith (fun og y => if og then none else some y)
      (s.map Option.isNone)
      ((normGrid (__mauder2013__ s 7).length).map
        (interp1 (((normGrid (__mauder2013__ s 7).length).zip
          (__mauder2013__ s 7)).filterMap
          (fun p => p.2.map (fun y => (p.1, y)))))), ?_, ?_, ?_, ?_⟩
  · rw [despike_column_eq s 7, hstage,
      if_neg (by simpa [List.isEmpty_iff] using hptsne)]
  · simp only [List.length_zipWith, List.length_map, normGrid_length, hmlen]
    exact min_self s.length
  · intro j hj
    have hjlt : j < s.length := by
      by_contra hge
      rw [List.get?_eq_none.mpr (by omega)] at hj
      exact Option.noConfusion hj
    have hjg : j < ((normGrid (__mauder2013__ s 7).length).map
        (interp1 (((normGrid (__mauder2013__ s 7).length).zip
          (__mauder2013__ s 7)).filterMap
          (fun p => p.2.map (fun y => (p.1, y)))))).length := by
      simp only [List.length_map, normGrid_length, hmlen]
      exact hjlt
    rw [List.get?_zipWith', List.get?_map, hj, List.get?_eq_get hjg]
    simp
  · intro j x hj
    have hjlt : j < s.length := by
      by_contra hge
      rw [List.get?_eq_none.mpr (by omega)] at hj
      exact Option.noConfusion hj
    have hjg : j < ((normGrid (__mauder2013__ s 7).length).map
        (interp1 (((normGrid (__mauder2013__ s 7).length).zip
          (__mauder2013__ s 7)).filterMap
          (fun p => p.2.map (fun y => (p.1, y)))))).length := by
      simp only [List.length_map, normGrid_length, hmlen]
      exact hjlt
    rw [List.get?_zipWith', List.get?_map, hj, List.get?_eq_get hjg]
    simp

/-- C5 (amended): for every input table in which each column has at least
one non-missing value, `__Despike__` succeeds and is applied
independently per column; each output column pairs the input column's
name with `despike_column` of that column alone, has the same length,
restores every originally missing index as missing, and holds a value at
every originally non-missing index (gaps newly created by the filters are
filled by the interpolation stage). -/
theorem C5_amended_despike_per_column (tbl : RTable)
    (h : ∀ p ∈ tbl, ∃ x ∈ p.2, x ≠ none) :
    ∃ out, __Despike__ tbl 7 = some out ∧ out.length = tbl.length ∧
      List.Forall₂ (fun (p q : String × Series) =>
        q.1 = p.1 ∧ despike_column p.2 7 = some q.2 ∧
        q.2.length = p.2.length ∧
        (∀ j, p.2.get? j = some none → q.2.get? j = some none) ∧
        (∀ j x, p.2.get? j = some (some x) → ∃ y, q.2.get? j = some (some y)))
        tbl out := by
  induction tbl with
  | nil => exact ⟨[], rfl, rfl, List.Forall₂.nil⟩
  | cons p tl ih =>
    obtain ⟨out', hout', hlen', hfa'⟩ :=
      ih (fun q hq => h q (List.mem_cons_of_mem _ hq))
    have hp := h p (List.mem_cons_self _ _)
    have hxne : someVals p.2 ≠ [] := by
      obtain ⟨x, hxmem, hxn⟩ := hp
      cases x with
      | none => exact absurd rfl hxn
      | some y =>
        intro hnil
        have hymem : y ∈ someVals p.2 :=
          List.mem_filterMap.mpr ⟨some y, hxmem, rfl⟩
        rw [hnil] at hymem
        exact List.not_mem_nil y hymem
    obtain ⟨o, ho, holen, homiss, hosome⟩ := despike_column_spec p.2 hxne
    refine ⟨(p.1, o) :: out', ?_, ?_, ?_⟩
    · show (p :: tl).mapM
          (fun q => (despike_column q.2 7).map (fun z => (q.1, z)))
        = some ((p.1, o) :: out')
      have htl : tl.mapM
          (fun q => (despike_column q.2 7).map (fun z => (q.1, z)))
          = some out' := hout'
      rw [List.mapM_cons]
      simp only [ho, Option.map_some']
      rw [htl]
      rfl
    · simp [hlen']
    · exact List.Forall₂.cons ⟨rfl, ho, holen, homiss, hosome⟩ hfa'

/-- Witness for C5 (amended) on a one-column table with an interior gap. -/
theorem C5_amended_despike_per_column_witness :
    ∃ out, __Despike__ [("a", [some 1, none, some 3])] 7 = some out ∧
      out.length = 1 ∧
      List.Forall₂ (fun (p q : String × Series) =>
        q.1 = p.1 ∧ despike_column p.2 7 = some q.2 ∧
        q.2.length = p.2.length ∧
        (∀ j, p.2.get? j = some none → q.2.get? j = some none) ∧
        (∀ j x, p.2.get? j = some (some x) → ∃ y, q.2.get? j = some (some y)))
        [("a", [some 1, none, some 3])] out :=
  C5_amended_despike_per_column [("a", [some 1, none, some 3])]
    (by decide)

end PyFluxPro
